import Mathlib

/-!
Shallow embedding of `src/src/todo_list_backend/src/lib.rs`, a persistent
todo-record store.  Pure data is translated directly; the thread-local
stable structures (`ID_COUNTER : Cell<u64>` and
`STORAGE : StableBTreeMap<u64, Todo>`) become an explicit `State` record
threaded through every operation.  The platform-supplied caller identity
(`ic_cdk::caller().to_string()`) and wall clock (`ic_cdk::api::time()`)
are opaque inputs, passed as explicit parameters.
-/

/-- `enum TaskStatus` from lib.rs (default `Pending`). -/
inductive TaskStatus where
  | Pending
  | InProgress
  | Completed
deriving DecidableEq, Repr

/-- `enum Priority` from lib.rs (default `Low`). -/
inductive Priority where
  | Low
  | Medium
  | High
  | Urgent
deriving DecidableEq, Repr

/-- `struct Todo` from lib.rs.  `u64` fields are modelled as `Nat`; the
operations below apply `% 2 ^ 64` wherever the source performs `u64`
arithmetic. -/
structure Todo where
  id : Nat
  title : String
  description : String
  status : TaskStatus
  priority : Priority
  due_date : Option Nat
  created_at : Nat
  updated_at : Option Nat
  owner : String
deriving DecidableEq, Repr

/-- `struct TodoPayload` from lib.rs. -/
structure TodoPayload where
  title : String
  description : String
  priority : Priority
  due_date : Option Nat
deriving DecidableEq, Repr

/-- `enum Error` from lib.rs. -/
inductive Error where
  | NotFound (msg : String)
  | InvalidInput (msg : String)
deriving DecidableEq, Repr

deriving instance DecidableEq for Except

/-- Modulus of the source's `u64` arithmetic. -/
def U64MOD : Nat := 2 ^ 64

/-- The process-wide persistent state: the `ID_COUNTER` stable cell
(initialised to `0`) and the `STORAGE` stable map from id to record.
The map is modelled by its lookup function, matching the
`get`/`insert`/`remove` contract the source uses. -/
structure State where
  counter : Nat
  storage : Nat → Option Todo

/-- Freshly initialised state: `IdCell::init(.., 0)` and an empty
`StableBTreeMap`. -/
def initState : State := { counter := 0, storage := fun _ => none }

/-- The whitespace predicate of Rust's `str::trim` / `char::is_whitespace`:
the Unicode `White_Space` property. -/
def rustIsWhitespace (c : Char) : Bool :=
  let n := c.toNat
  (0x09 ≤ n && n ≤ 0x0D) || n == 0x20 || n == 0x85 || n == 0xA0 ||
  n == 0x1680 || (0x2000 ≤ n && n ≤ 0x200A) || n == 0x2028 || n == 0x2029 ||
  n == 0x202F || n == 0x205F || n == 0x3000

/-- Rust's `str::trim`: strip leading and trailing whitespace. -/
def rustTrim (s : String) : String :=
  ⟨((s.data.dropWhile rustIsWhitespace).reverse.dropWhile rustIsWhitespace).reverse⟩

/-- The `ID_COUNTER` block of `add_todo` (lib.rs lines 108-113):
`current_value = *counter.borrow().get(); counter.borrow_mut().set(current_value + 1)`.
`ic_stable_structures::Cell::set` persists the new value and returns
`Ok` of the previous value (it ends in `mem::replace`), so the id the
block yields is the counter value from before the increment. -/
def counterNext (s : State) : Nat × State :=
  (s.counter, { s with counter := (s.counter + 1) % U64MOD })

/-- `fn do_insert(todo: &Todo)` from lib.rs: `STORAGE.insert(todo.id, todo.clone())`. -/
def do_insert (todo : Todo) (s : State) : State :=
  { s with storage := fun k => if k = todo.id then some todo else s.storage k }

/-- `STORAGE.remove(&id)`: deletes the entry and returns the prior value. -/
def storage_remove (id : Nat) (s : State) : Option Todo × State :=
  (s.storage id, { s with storage := fun k => if k = id then none else s.storage k })

/-- `fn _get_todo(id: &u64) -> Option<Todo>` from lib.rs. -/
def _get_todo (id : Nat) (s : State) : Option Todo :=
  s.storage id

/-- `fn get_todo(id: u64) -> Result<Todo, Error>` from lib.rs (query: no
state change). -/
def get_todo (id : Nat) (s : State) : Except Error Todo :=
  match _get_todo id s with
  | some todo => .ok todo
  | none => .error (.NotFound ("Todo with id=" ++ toString id ++ " not found"))

/-- `fn add_todo(payload: TodoPayload) -> Result<Todo, Error>` from lib.rs. -/
def add_todo (caller : String) (now : Nat) (payload : TodoPayload) (s : State) :
    Except Error Todo × State :=
  if (rustTrim payload.title).isEmpty then
    (.error (.InvalidInput "Title cannot be empty"), s)
  else
    let (id, s1) := counterNext s
    let todo : Todo :=
      { id := id, title := payload.title, description := payload.description,
        status := .Pending, priority := payload.priority,
        due_date := payload.due_date, created_at := now, updated_at := none,
        owner := caller }
    (.ok todo, do_insert todo s1)

/-- `fn update_todo(id: u64, payload: TodoPayload) -> Result<Todo, Error>` from lib.rs. -/
def update_todo (caller : String) (now : Nat) (id : Nat) (payload : TodoPayload)
    (s : State) : Except Error Todo × State :=
  match s.storage id with
  | some todo =>
    if todo.owner ≠ caller then
      (.error (.NotFound ("Not authorized to update todo with id=" ++ toString id)), s)
    else
      let t : Todo :=
        { todo with
          title := payload.title,
          description := payload.description,
          priority := payload.priority,
          due_date := payload.due_date,
          updated_at := some now }
      (.ok t, do_insert t s)
  | none =>
    (.error (.NotFound ("Couldn't update todo with id=" ++ toString id ++ ". Todo not found")), s)

/-- `fn delete_todo(id: u64) -> Result<Todo, Error>` from lib.rs: the record
is removed from the map first; the ownership check runs on the removed
value. -/
def delete_todo (caller : String) (id : Nat) (s : State) : Except Error Todo × State :=
  match storage_remove id s with
  | (some todo, s1) =>
    if todo.owner ≠ caller then
      (.error (.NotFound ("Not authorized to delete todo with id=" ++ toString id)), s1)
    else
      (.ok todo, s1)
  | (none, s1) =>
    (.error (.NotFound ("Couldn't delete todo with id=" ++ toString id ++ ". Todo not found.")), s1)

/-- `fn update_status(id: u64, status: TaskStatus) -> Result<Todo, Error>` from lib.rs. -/
def update_status (caller : String) (now : Nat) (id : Nat) (status : TaskStatus)
    (s : State) : Except Error Todo × State :=
  match s.storage id with
  | some todo =>
    if todo.owner ≠ caller then
      (.error (.NotFound ("Not authorized to update todo with id=" ++ toString id)), s)
    else
      let t : Todo := { todo with status := status, updated_at := some now }
      (.ok t, do_insert t s)
  | none =>
    (.error (.NotFound ("Couldn't update todo status with id=" ++ toString id ++ ". Todo not found")), s)

/-- Concrete record used to instantiate hypothesis-bearing theorems. -/
def todoW : Todo :=
  { id := 0, title := "Buy milk", description := "", status := .Pending,
    priority := .Low, due_date := none, created_at := 5, updated_at := none,
    owner := "alice" }

/-- Concrete state holding `todoW` at key 0, as produced by one successful add. -/
def stateW : State :=
  { counter := 1, storage := fun k => if k = 0 then some todoW else none }

/-- Payload used to instantiate hypothesis-bearing theorems. -/
def payloadW : TodoPayload :=
  { title := "Walk dog", description := "in the park", priority := .High,
    due_date := some 99 }

/-- C1 counterexample: starting from the freshly initialised state
(counter = 0), `add_todo` creates a record with id = 0, not id = 1 as the
claim states, because `Cell::set` returns the value previously stored. -/
theorem C1_counterexample :
    ((add_todo "alice" 100 ⟨"Buy milk", "", .Low, none⟩ initState).1.toOption.map Todo.id)
      = some 0 ∧
    ((add_todo "alice" 100 ⟨"Buy milk", "", .Low, none⟩ initState).1.toOption.map Todo.id)
      ≠ some 1 := by
  decide

/-- C1 (amended): each allocation reads the current counter value, persists
`(current + 1) % 2^64` and returns the OLD value (pre-increment result),
so the first `add_todo` after initialization at 0 creates a record with
id = 0. -/
theorem C1_amended (caller : String) (now : Nat) (payload : TodoPayload) (s : State)
    (h : (rustTrim payload.title).isEmpty = false) :
    (add_todo caller now payload s).1 =
      .ok { id := s.counter, title := payload.title,
            description := payload.description, status := .Pending,
            priority := payload.priority, due_date := payload.due_date,
            created_at := now, updated_at := none, owner := caller } ∧
    (add_todo caller now payload s).2.counter = (s.counter + 1) % U64MOD := by
  simp [add_todo, counterNext, do_insert, h]

/-- Witness for C1_amended at the initial state: the first created record
carries id = initState.counter = 0 and the persisted counter becomes 1. -/
theorem C1_amended_witness :
    (add_todo "alice" 100 ⟨"Buy milk", "", .Low, none⟩ initState).1 =
      .ok { id := initState.counter, title := "Buy milk", description := "",
            status := .Pending, priority := .Low, due_date := none,
            created_at := 100, updated_at := none, owner := "alice" } ∧
    (add_todo "alice" 100 ⟨"Buy milk", "", .Low, none⟩ initState).2.counter =
      (initState.counter + 1) % U64MOD :=
  C1_amended "alice" 100 ⟨"Buy milk", "", .Low, none⟩ initState (by decide)

/-- C2: when the stored record's owner differs from the caller, `delete_todo`
reports NotFound ("Not authorized"), yet the record was already removed from
the map before the ownership check, so a subsequent `get_todo` on that id
also reports NotFound. -/
theorem C2_nonowner_delete_destroys (caller : String) (id : Nat) (s : State) (todo : Todo)
    (hget : s.storage id = some todo) (hown : todo.owner ≠ caller) :
    (delete_todo caller id s).1 =
      .error (.NotFound ("Not authorized to delete todo with id=" ++ toString id)) ∧
    get_todo id (delete_todo caller id s).2 =
      .error (.NotFound ("Todo with id=" ++ toString id ++ " not found")) := by
  simp [delete_todo, storage_remove, hget, hown, get_todo, _get_todo]

/-- Witness for C2 : caller "bob" deletes the record owned by "alice". -/
theorem C2_witness :
    (delete_todo "bob" 0 stateW).1 =
      .error (.NotFound ("Not authorized to delete todo with id=" ++ toString 0)) ∧
    get_todo 0 (delete_todo "bob" 0 stateW).2 =
      .error (.NotFound ("Todo with id=" ++ toString 0 ++ " not found")) :=
  C2_nonowner_delete_destroys "bob" 0 stateW todoW (by decide) (by decide)

/-- C3: for a stored record whose owner equals the caller, `update_todo`
returns and persists exactly the record obtained from the stored one by
replacing title, description, priority, due_date and updated_at (the latter
with the current time), leaving id, created_at, owner and status unchanged;
the counter is untouched. -/
theorem C3_update_frame (caller : String) (now : Nat) (id : Nat) (payload : TodoPayload)
    (s : State) (todo : Todo)
    (hget : s.storage id = some todo) (hown : todo.owner = caller) :
    (update_todo caller now id payload s).1 =
      .ok { todo with
            title := payload.title,
            description := payload.description,
            priority := payload.priority,
            due_date := payload.due_date,
            updated_at := some now } ∧
    (update_todo caller now id payload s).2.storage todo.id =
      some { todo with
             title := payload.title,
             description := payload.description,
             priority := payload.priority,
             due_date := payload.due_date,
             updated_at := some now } ∧
    (update_todo caller now id payload s).2.counter = s.counter := by
  simp [update_todo, hget, hown, do_insert]

/-- Witness for C3 : owner "alice" updates her record. -/
theorem C3_witness :
    (update_todo "alice" 77 0 payloadW stateW).1 =
      .ok { todoW with
            title := payloadW.title,
            description := payloadW.description,
            priority := payloadW.priority,
            due_date := payloadW.due_date,
            updated_at := some 77 } ∧
    (update_todo "alice" 77 0 payloadW stateW).2.storage todoW.id =
      some { todoW with
             title := payloadW.title,
             description := payloadW.description,
             priority := payloadW.priority,
             due_date := payloadW.due_date,
             updated_at := some 77 } ∧
    (update_todo "alice" 77 0 payloadW stateW).2.counter = stateW.counter :=
  C3_update_frame "alice" 77 0 payloadW stateW todoW (by decide) (by decide)

/-- C4: `add_todo` fails with InvalidInput "Title cannot be empty" exactly
when the title trims to empty; it never fails with NotFound; otherwise it
returns and persists a record with the freshly allocated id, status
Pending, created_at = now, updated_at = none and owner = caller. -/
theorem C4_add_validation (caller : String) (now : Nat) (payload : TodoPayload)
    (s : State) (m : String) :
    ((add_todo caller now payload s).1 = .error (.InvalidInput "Title cannot be empty")
      ↔ (rustTrim payload.title).isEmpty = true) ∧
    (add_todo caller now payload s).1 ≠ .error (.NotFound m) ∧
    (add_todo caller now payload s).1 =
      (if (rustTrim payload.title).isEmpty then
        .error (.InvalidInput "Title cannot be empty")
      else
        .ok { id := s.counter, title := payload.title,
              description := payload.description, status := .Pending,
              priority := payload.priority, due_date := payload.due_date,
              created_at := now, updated_at := none, owner := caller }) ∧
    (add_todo caller now payload s).2.storage s.counter =
      (if (rustTrim payload.title).isEmpty then s.storage s.counter
      else
        some { id := s.counter, title := payload.title,
               description := payload.description, status := .Pending,
               priority := payload.priority, due_date := payload.due_date,
               created_at := now, updated_at := none, owner := caller }) := by
  cases h : (rustTrim payload.title).isEmpty <;>
    simp [add_todo, counterNext, do_insert, h]

/-- C5: a successful `add_todo` followed by `get_todo` on the returned
record's id returns that very record. -/
theorem C5_add_then_get (caller : String) (now : Nat) (payload : TodoPayload)
    (s : State) (t : Todo) (h : (add_todo caller now payload s).1 = .ok t) :
    get_todo t.id (add_todo caller now payload s).2 = .ok t := by
  by_cases he : (rustTrim payload.title).isEmpty
  · simp [add_todo, he] at h
  · simp [add_todo, he, counterNext] at h ⊢
    subst h
    simp [get_todo, _get_todo, do_insert]

/-- Witness for C5 : add then get at the returned id. -/
theorem C5_witness :
    get_todo
      ({ id := 0, title := "Walk dog", description := "in the park",
         status := .Pending, priority := .High, due_date := some 99,
         created_at := 3, updated_at := none, owner := "carol" } : Todo).id
      (add_todo "carol" 3 payloadW initState).2 =
      .ok { id := 0, title := "Walk dog", description := "in the park",
            status := .Pending, priority := .High, due_date := some 99,
            created_at := 3, updated_at := none, owner := "carol" } :=
  C5_add_then_get "carol" 3 payloadW initState _ (by decide)

/-- C9: `update_status` has update_todo's ownership semantics: with the
record present, a non-owner caller gets NotFound ("Not authorized") and the
stored record is untouched; the owner gets back (and the map stores) the
record with only status and updated_at replaced — any status argument is
accepted, with no illegal-transition error. -/
theorem C9_update_status (caller : String) (now : Nat) (id : Nat) (st : TaskStatus)
    (s : State) (todo : Todo) (hget : s.storage id = some todo) :
    (update_status caller now id st s).1 =
      (if todo.owner ≠ caller then
        .error (.NotFound ("Not authorized to update todo with id=" ++ toString id))
      else .ok { todo with status := st, updated_at := some now }) ∧
    (update_status caller now id st s).2.storage todo.id =
      (if todo.owner ≠ caller then s.storage todo.id
      else some { todo with status := st, updated_at := some now }) ∧
    (update_status caller now id st s).2.counter = s.counter := by
  by_cases hown : todo.owner = caller <;>
    simp [update_status, hget, hown, do_insert]

/-- Witness for C9 : non-owner "bob" is rejected while the record survives. -/
theorem C9_witness :
    (update_status "bob" 42 0 .Completed stateW).1 =
      (if todoW.owner ≠ "bob" then
        .error (.NotFound ("Not authorized to update todo with id=" ++ toString 0))
      else .ok { todoW with status := .Completed, updated_at := some 42 }) ∧
    (update_status "bob" 42 0 .Completed stateW).2.storage todoW.id =
      (if todoW.owner ≠ "bob" then stateW.storage todoW.id
      else some { todoW with status := .Completed, updated_at := some 42 }) ∧
    (update_status "bob" 42 0 .Completed stateW).2.counter = stateW.counter :=
  C9_update_status "bob" 42 0 .Completed stateW todoW (by decide)

/-- C10: a validation failure of `add_todo` (title trims to empty) leaves the
whole persisted state — counter and map — exactly as it was. -/
theorem C10_failed_add_preserves_state (caller : String) (now : Nat)
    (payload : TodoPayload) (s : State)
    (h : (rustTrim payload.title).isEmpty = true) :
    (add_todo caller now payload s).2 = s := by
  simp [add_todo, h]

/-- Witness for C10 : an all-whitespace title leaves the state untouched. -/
theorem C10_witness :
    (add_todo "alice" 9 ⟨"  ", "d", .Low, none⟩ initState).2 = initState :=
  C10_failed_add_preserves_state "alice" 9 ⟨"  ", "d", .Low, none⟩ initState (by decide)

/-- `BoundedStorable for Todo` from lib.rs: `const MAX_SIZE: u32 = 2048`. -/
def MAX_SIZE : Nat := 2048

/-- Modelled from the spec: the Binary Codec of §4.2.  The source's
`Storable::to_bytes` delegates to the external candid crate's `Encode!`
(`Cow::Owned(Encode!(self).unwrap())`), whose byte format is not part of
this repository's sources, so the codec is modelled from the spec's words:
numeric fields use a fixed-width representation (little-endian base-256
digits here), optional fields an explicit presence tag, and enums a small
stable tag.  `encodeFixed w n` is the `w`-byte fixed-width encoding. -/
def encodeFixed : Nat → Nat → List Nat
  | 0, _ => []
  | w + 1, n => n % 256 :: encodeFixed w (n / 256)

/-- Fixed-width decoder matching `encodeFixed`. -/
def decodeFixed : Nat → List Nat → Option (Nat × List Nat)
  | 0, bs => some (0, bs)
  | _ + 1, [] => none
  | w + 1, b :: bs => (decodeFixed w bs).map (fun p => (b + 256 * p.1, p.2))

/-- Text encoding: each character as its 4-byte fixed-width code point. -/
def encodeChars : List Char → List Nat
  | [] => []
  | c :: cs => encodeFixed 4 c.toNat ++ encodeChars cs

/-- Character decoder; rejects invalid code points (decode of malformed
bytes fails, per §4.2). -/
def decodeChar (bs : List Nat) : Option (Char × List Nat) :=
  match decodeFixed 4 bs with
  | some (n, rest) => if n.isValidChar then some (Char.ofNat n, rest) else none
  | none => none

/-- Decode `k` characters. -/
def decodeChars : Nat → List Nat → Option (List Char × List Nat)
  | 0, bs => some ([], bs)
  | k + 1, bs =>
    match decodeChar bs with
    | some (c, rest) => (decodeChars k rest).map (fun p => (c :: p.1, p.2))
    | none => none

/-- String encoding: 8-byte length followed by the characters. -/
def encodeString (s : String) : List Nat :=
  encodeFixed 8 s.data.length ++ encodeChars s.data

/-- String decoder matching `encodeString`. -/
def decodeString (bs : List Nat) : Option (String × List Nat) :=
  match decodeFixed 8 bs with
  | some (len, rest) =>
    match decodeChars len rest with
    | some (cs, rest2) => some (⟨cs⟩, rest2)
    | none => none
  | none => none

/-- Optional u64: explicit presence tag then the fixed-width payload. -/
def encodeOptU64 : Option Nat → List Nat
  | none => [0]
  | some n => 1 :: encodeFixed 8 n

/-- Decoder matching `encodeOptU64`. -/
def decodeOptU64 : List Nat → Option (Option Nat × List Nat)
  | 0 :: bs => some (none, bs)
  | 1 :: bs => (decodeFixed 8 bs).map (fun p => (some p.1, p.2))
  | _ => none

/-- Status tags, stable across versions (§9): Pending 0, InProgress 1,
Completed 2. -/
def encodeStatus : TaskStatus → List Nat
  | .Pending => [0]
  | .InProgress => [1]
  | .Completed => [2]

/-- Decoder matching `encodeStatus`. -/
def decodeStatus : List Nat → Option (TaskStatus × List Nat)
  | 0 :: bs => some (.Pending, bs)
  | 1 :: bs => some (.InProgress, bs)
  | 2 :: bs => some (.Completed, bs)
  | _ => none

/-- Priority tags, stable across versions (§9): Low 0, Medium 1, High 2,
Urgent 3. -/
def encodePriority : Priority → List Nat
  | .Low => [0]
  | .Medium => [1]
  | .High => [2]
  | .Urgent => [3]

/-- Decoder matching `encodePriority`. -/
def decodePriority : List Nat → Option (Priority × List Nat)
  | 0 :: bs => some (.Low, bs)
  | 1 :: bs => some (.Medium, bs)
  | 2 :: bs => some (.High, bs)
  | 3 :: bs => some (.Urgent, bs)
  | _ => none

/-- Modelled from the spec: `encode(record) -> bytes` of §4.2, the
`Storable::to_bytes` of the `Todo` record (source name kept). -/
def to_bytes (r : Todo) : List Nat :=
  encodeFixed 8 r.id ++ encodeString r.title ++ encodeString r.description ++
  encodeStatus r.status ++ encodePriority r.priority ++ encodeOptU64 r.due_date ++
  encodeFixed 8 r.created_at ++ encodeOptU64 r.updated_at ++ encodeString r.owner

/-- Modelled from the spec: `decode(bytes) -> record` of §4.2, the
`Storable::from_bytes` of the `Todo` record; fails (`none`) on malformed
or trailing bytes. -/
def from_bytes (bs : List Nat) : Option Todo := do
  let (id, r1) ← decodeFixed 8 bs
  let (title, r2) ← decodeString r1
  let (description, r3) ← decodeString r2
  let (status, r4) ← decodeStatus r3
  let (priority, r5) ← decodePriority r4
  let (due_date, r6) ← decodeOptU64 r5
  let (created_at, r7) ← decodeFixed 8 r6
  let (updated_at, r8) ← decodeOptU64 r7
  let (owner, r9) ← decodeString r8
  if r9.isEmpty then
    pure { id := id, title := title, description := description, status := status,
           priority := priority, due_date := due_date, created_at := created_at,
           updated_at := updated_at, owner := owner }
  else
    none

theorem pow256_8 : 256 ^ 8 = U64MOD := by norm_num [U64MOD]

theorem decodeFixed_encodeFixed {w n : Nat} (h : n < 256 ^ w) (rest : List Nat) :
    decodeFixed w (encodeFixed w n ++ rest) = some (n, rest) := by
  induction w generalizing n with
  | zero =>
    simp [encodeFixed, decodeFixed]
    omega
  | succ w ih =>
    have hdiv : n / 256 < 256 ^ w := by
      apply Nat.div_lt_of_lt_mul
      rw [pow_succ, mul_comm] at h
      exact h
    simp [encodeFixed, decodeFixed, ih hdiv]
    omega

theorem char_ofNat_toNat (c : Char) : Char.ofNat c.toNat = c := by
  have hv : c.toNat.isValidChar := c.valid
  rcases c with ⟨⟨⟨n, hlt⟩⟩, hv2⟩
  simp only [Char.ofNat, Char.toNat] at *
  rw [dif_pos hv]
  rfl

theorem char_toNat_lt (c : Char) : c.toNat < 256 ^ 4 := by
  have hv : c.toNat.isValidChar := c.valid
  rcases hv with h | h <;> omega

theorem decodeChar_encodeChar (c : Char) (rest : List Nat) :
    decodeChar (encodeFixed 4 c.toNat ++ rest) = some (c, rest) := by
  have hv : c.toNat.isValidChar := c.valid
  simp [decodeChar, decodeFixed_encodeFixed (char_toNat_lt c) rest, hv, char_ofNat_toNat]

theorem decodeChars_encodeChars (cs : List Char) (rest : List Nat) :
    decodeChars cs.length (encodeChars cs ++ rest) = some (cs, rest) := by
  induction cs generalizing rest with
  | nil => rfl
  | cons c cs ih =>
    simp [encodeChars, decodeChars, decodeChar_encodeChar, ih]

theorem decodeString_encodeString (s : String) (h : s.data.length < 256 ^ 8)
    (rest : List Nat) :
    decodeString (encodeString s ++ rest) = some (s, rest) := by
  simp only [encodeString, decodeString, List.append_assoc,
    decodeFixed_encodeFixed h, decodeChars_encodeChars]

theorem decodeStatus_encodeStatus (st : TaskStatus) (rest : List Nat) :
    decodeStatus (encodeStatus st ++ rest) = some (st, rest) := by
  cases st <;> rfl

theorem decodePriority_encodePriority (p : Priority) (rest : List Nat) :
    decodePriority (encodePriority p ++ rest) = some (p, rest) := by
  cases p <;> rfl

theorem decodeOptU64_encodeOptU64 {o : Option Nat} (h : ∀ d, o = some d → d < 256 ^ 8)
    (rest : List Nat) :
    decodeOptU64 (encodeOptU64 o ++ rest) = some (o, rest) := by
  cases o with
  | none => rfl
  | some d =>
    simp [encodeOptU64, decodeOptU64, decodeFixed_encodeFixed (h d rfl) rest]

theorem decodeString_encodeString_nil (s : String) (h : s.data.length < 256 ^ 8) :
    decodeString (encodeString s) = some (s, []) := by
  have := decodeString_encodeString s h []
  simpa using this

/-- C6: the codec round-trips: decoding the encoding of any representable
record (all enum variants, optional fields present or absent, u64 fields
within range) yields the record back. -/
theorem C6_codec_roundtrip (r : Todo)
    (hid : r.id < U64MOD) (hca : r.created_at < U64MOD)
    (ht : r.title.data.length < U64MOD) (hd : r.description.data.length < U64MOD)
    (ho : r.owner.data.length < U64MOD)
    (hdd : ∀ d, r.due_date = some d → d < U64MOD)
    (hup : ∀ u, r.updated_at = some u → u < U64MOD) :
    from_bytes (to_bytes r) = some r := by
  obtain ⟨id, title, description, status, priority, due_date, created_at, updated_at, owner⟩ := r
  simp only at hid hca ht hd ho hdd hup
  rw [← pow256_8] at hid hca ht hd ho
  have hdd' : ∀ d, due_date = some d → d < 256 ^ 8 := by
    intro d hdq
    rw [pow256_8]
    exact hdd d hdq
  have hup' : ∀ u, updated_at = some u → u < 256 ^ 8 := by
    intro u huq
    rw [pow256_8]
    exact hup u huq
  simp [to_bytes, from_bytes, List.append_assoc,
    decodeFixed_encodeFixed hid, decodeFixed_encodeFixed hca,
    decodeString_encodeString title ht, decodeString_encodeString description hd,
    decodeStatus_encodeStatus, decodePriority_encodePriority,
    decodeOptU64_encodeOptU64 hdd', decodeOptU64_encodeOptU64 hup',
    decodeString_encodeString_nil owner ho]

/-- Witness for C6 at the concrete record `todoW`. -/
theorem C6_witness : from_bytes (to_bytes todoW) = some todoW :=
  C6_codec_roundtrip todoW (by decide) (by decide) (by decide) (by decide) (by decide)
    (fun d h => by simp [todoW] at h) (fun u h => by simp [todoW] at h)

theorem dropWhile_replicate_char (n : Nat) (c : Char) (h : rustIsWhitespace c = false) :
    (List.replicate n c).dropWhile rustIsWhitespace = List.replicate n c := by
  cases n with
  | zero => rfl
  | succ n => simp [List.replicate_succ, List.dropWhile_cons, h]

theorem rustTrim_replicate (n : Nat) (c : Char) (h : rustIsWhitespace c = false) :
    rustTrim ⟨List.replicate n c⟩ = ⟨List.replicate n c⟩ := by
  simp [rustTrim, dropWhile_replicate_char _ _ h, List.reverse_replicate]

theorem mk_cons_ne_empty (c : Char) (l : List Char) : (⟨c :: l⟩ : String) ≠ "" := by
  intro hEq
  have h2 : c :: l = [] := congrArg String.data hEq
  cases h2

theorem mk_replicate_succ_isEmpty (n : Nat) (c : Char) :
    (⟨List.replicate (n + 1) c⟩ : String).isEmpty = false := by
  rw [Bool.eq_false_iff]
  intro hEq
  have h2 := (String.isEmpty_iff _).1 hEq
  rw [List.replicate_succ] at h2
  exact mk_cons_ne_empty c (List.replicate n c) h2

theorem encodeFixed_length (w n : Nat) : (encodeFixed w n).length = w := by
  induction w generalizing n with
  | zero => rfl
  | succ w ih => simp [encodeFixed, ih]

theorem encodeChars_length (cs : List Char) : (encodeChars cs).length = 4 * cs.length := by
  induction cs with
  | nil => rfl
  | cons c cs ih =>
    simp [encodeChars, encodeFixed_length, ih]
    ring

theorem encodeString_length (s : String) :
    (encodeString s).length = 8 + 4 * s.data.length := by
  simp [encodeString, encodeFixed_length, encodeChars_length]

/-- Title of 3000 characters: accepted by `add_todo`, but its encoding
exceeds the declared `MAX_SIZE`. -/
def bigTitle : String := ⟨List.replicate 3000 'a'⟩

/-- Payload with the oversized title. -/
def bigPayload : TodoPayload :=
  { title := bigTitle, description := "", priority := .Low, due_date := none }

/-- The record `add_todo` builds and stores for `bigPayload`. -/
def bigTodo : Todo :=
  { id := 0, title := bigTitle, description := "", status := .Pending,
    priority := .Low, due_date := none, created_at := 7, updated_at := none,
    owner := "alice" }

/-- C7 (code bug): `add_todo` accepts a 3000-character title and persists
the record, yet the encoded byte sequence of that record is longer than
the fixed maximum size `MAX_SIZE = 2048` declared by `BoundedStorable for
Todo` — the upstream title/description length limits the spec requires do
not exist. -/
theorem C7_bound_exceeded :
    (add_todo "alice" 7 bigPayload initState).1 = .ok bigTodo ∧
    MAX_SIZE < (to_bytes bigTodo).length := by
  have hne : (rustTrim bigTitle).isEmpty = false := by
    rw [show bigTitle = ⟨List.replicate (2999 + 1) 'a'⟩ from rfl]
    rw [rustTrim_replicate (2999 + 1) 'a' (by decide)]
    exact mk_replicate_succ_isEmpty 2999 'a'
  constructor
  · simp [add_todo, bigPayload, hne, counterNext, do_insert, initState, bigTodo]
  · have hbig : bigTitle.data.length = 3000 := by
      show (List.replicate 3000 'a').length = 3000
      rw [List.length_replicate]
    have hdesc : ("" : String).data.length = 0 := rfl
    have howner : ("alice" : String).data.length = 5 := rfl
    simp [to_bytes, bigTodo, encodeString_length, encodeFixed_length,
      encodeOptU64, encodeStatus, encodePriority, hbig, hdesc, howner, MAX_SIZE]

/-- One exposed request against the service; caller identity and current
time are the opaque platform inputs of each call. -/
inductive Op where
  | add (caller : String) (now : Nat) (payload : TodoPayload)
  | update (caller : String) (now : Nat) (id : Nat) (payload : TodoPayload)
  | del (caller : String) (id : Nat)
  | setStatus (caller : String) (now : Nat) (id : Nat) (st : TaskStatus)
  | query (id : Nat)
deriving Repr

/-- Observable id events along a trace: `assigned i` when a successful
`add_todo` returns a record with id `i`; `removed i` when `delete_todo`
actually removes the record stored at id `i` (including a non-owner's
delete, which removes the record before reporting failure). -/
inductive Event where
  | assigned (id : Nat)
  | removed (id : Nat)
deriving DecidableEq, Repr

/-- The id an event is about. -/
def eventId : Event → Nat
  | .assigned i => i
  | .removed i => i

/-- Execute one operation, returning the new state and its id events. -/
def step (s : State) : Op → State × List Event
  | .add caller now payload =>
    match add_todo caller now payload s with
    | (.ok t, s') => (s', [.assigned t.id])
    | (.error _, s') => (s', [])
  | .update caller now id payload => ((update_todo caller now id payload s).2, [])
  | .del caller id =>
    match s.storage id with
    | some _ => ((delete_todo caller id s).2, [.removed id])
    | none => ((delete_todo caller id s).2, [])
  | .setStatus caller now id st => ((update_status caller now id st s).2, [])
  | .query _ => (s, [])

/-- Execute a trace of operations, collecting all id events in order. -/
def run (s : State) : List Op → State × List Event
  | [] => (s, [])
  | op :: ops =>
    let p := step s op
    let q := run p.1 ops
    (q.1, p.2 ++ q.2)

/-- Order constraint between two events in trace order: a later assigned id
is strictly larger than every earlier assigned id and strictly larger than
every earlier removed id (so removed ids are never reassigned). -/
def eventLt : Event → Event → Prop
  | .assigned i, .assigned j => i < j
  | .removed i, .assigned j => i < j
  | _, _ => True

instance : DecidableRel eventLt
  | .assigned i, .assigned j => inferInstanceAs (Decidable (i < j))
  | .removed i, .assigned j => inferInstanceAs (Decidable (i < j))
  | .assigned _, .removed _ => inferInstanceAs (Decidable True)
  | .removed _, .removed _ => inferInstanceAs (Decidable True)

/-- Reachable-state invariant: every stored record sits at a key below the
counter, under its own id. -/
def StateOk (s : State) : Prop :=
  ∀ id t, s.storage id = some t → id < s.counter ∧ t.id = id

theorem update_todo_stateOk (caller : String) (now : Nat) (id : Nat)
    (payload : TodoPayload) (s : State) (hs : StateOk s) :
    StateOk (update_todo caller now id payload s).2 ∧
    (update_todo caller now id payload s).2.counter = s.counter := by
  unfold update_todo
  rcases h : s.storage id with _ | todo
  · exact ⟨hs, rfl⟩
  · obtain ⟨hlt, hid⟩ := hs id todo h
    dsimp only
    by_cases hown : todo.owner ≠ caller
    · rw [if_pos hown]
      exact ⟨hs, rfl⟩
    · rw [if_neg hown]
      refine ⟨?_, rfl⟩
      intro k u hk
      simp only [do_insert] at hk
      by_cases hkid : k = todo.id
      · rw [if_pos hkid] at hk
        cases hk
        refine ⟨?_, ?_⟩
        · show k < s.counter
          omega
        · show todo.id = k
          omega
      · rw [if_neg hkid] at hk
        exact hs k u hk

theorem update_status_stateOk (caller : String) (now : Nat) (id : Nat)
    (st : TaskStatus) (s : State) (hs : StateOk s) :
    StateOk (update_status caller now id st s).2 ∧
    (update_status caller now id st s).2.counter = s.counter := by
  unfold update_status
  rcases h : s.storage id with _ | todo
  · exact ⟨hs, rfl⟩
  · obtain ⟨hlt, hid⟩ := hs id todo h
    dsimp only
    by_cases hown : todo.owner ≠ caller
    · rw [if_pos hown]
      exact ⟨hs, rfl⟩
    · rw [if_neg hown]
      refine ⟨?_, rfl⟩
      intro k u hk
      simp only [do_insert] at hk
      by_cases hkid : k = todo.id
      · rw [if_pos hkid] at hk
        cases hk
        refine ⟨?_, ?_⟩
        · show k < s.counter
          omega
        · show todo.id = k
          omega
      · rw [if_neg hkid] at hk
        exact hs k u hk

theorem delete_todo_state (caller : String) (id : Nat) (s : State) :
    (delete_todo caller id s).2 =
      { s with storage := fun k => if k = id then none else s.storage k } := by
  unfold delete_todo storage_remove
  rcases s.storage id with _ | todo
  · rfl
  · dsimp only
    by_cases hown : todo.owner ≠ caller
    · rw [if_pos hown]
    · rw [if_neg hown]

theorem delete_todo_stateOk (caller : String) (id : Nat) (s : State) (hs : StateOk s) :
    StateOk (delete_todo caller id s).2 ∧
    (delete_todo caller id s).2.counter = s.counter := by
  rw [delete_todo_state]
  constructor
  · intro k u hk
    simp only at hk
    by_cases hkid : k = id
    · rw [if_pos hkid] at hk
      cases hk
    · rw [if_neg hkid] at hk
      exact hs k u hk
  · rfl

theorem add_todo_ok (caller : String) (now : Nat) (payload : TodoPayload) (s : State)
    (he : (rustTrim payload.title).isEmpty = false) :
    add_todo caller now payload s =
      (.ok { id := s.counter, title := payload.title,
             description := payload.description, status := .Pending,
             priority := payload.priority, due_date := payload.due_date,
             created_at := now, updated_at := none, owner := caller },
       { counter := (s.counter + 1) % U64MOD,
         storage := fun k =>
           if k = s.counter then
             some { id := s.counter, title := payload.title,
                    description := payload.description, status := .Pending,
                    priority := payload.priority, due_date := payload.due_date,
                    created_at := now, updated_at := none, owner := caller }
           else s.storage k }) := by
  simp [add_todo, he, counterNext, do_insert]

theorem eventLt_of_lt {a : Event} {j : Nat} (h : eventId a < j) :
    eventLt a (.assigned j) := by
  cases a <;> simpa [eventLt, eventId] using h

theorem eventLt_removed (a : Event) (j : Nat) : eventLt a (.removed j) := by
  cases a <;> simp [eventLt]

theorem step_ok (s : State) (op : Op) (hs : StateOk s) (hw : s.counter + 1 < U64MOD) :
    StateOk (step s op).1 ∧
    s.counter ≤ (step s op).1.counter ∧
    (step s op).1.counter ≤ s.counter + 1 ∧
    (∀ e ∈ (step s op).2, eventId e < (step s op).1.counter) ∧
    (∀ j, Event.assigned j ∈ (step s op).2 → s.counter ≤ j) ∧
    ((step s op).2 = [] ∨ ∃ x, (step s op).2 = [x]) := by
  cases op with
  | add caller now payload =>
    by_cases he : (rustTrim payload.title).isEmpty
    · have hadd : add_todo caller now payload s =
          (.error (.InvalidInput "Title cannot be empty"), s) := by
        simp [add_todo, he]
      simp only [step, hadd]
      exact ⟨hs, le_refl _, Nat.le_succ _, by simp, by simp, by simp⟩
    · rw [Bool.not_eq_true] at he
      have hmod : (s.counter + 1) % U64MOD = s.counter + 1 := Nat.mod_eq_of_lt hw
      simp only [step, add_todo_ok caller now payload s he]
      refine ⟨?_, ?_, ?_, ?_, ?_, by simp⟩
      · intro k u hk
        simp only at hk
        by_cases hkid : k = s.counter
        · rw [if_pos hkid] at hk
          cases hk
          simp only [hmod]
          omega
        · rw [if_neg hkid] at hk
          obtain ⟨h1, h2⟩ := hs k u hk
          simp only [hmod]
          omega
      · simp only [hmod]
        omega
      · simp only [hmod]
        omega
      · intro e hev
        simp only [List.mem_singleton] at hev
        subst hev
        simp only [eventId, hmod]
        omega
      · intro j hj
        simp only [List.mem_singleton, Event.assigned.injEq] at hj
        omega
  | update caller now id payload =>
    obtain ⟨h1, h2⟩ := update_todo_stateOk caller now id payload s hs
    simp only [step]
    exact ⟨h1, le_of_eq h2.symm, by rw [h2]; exact Nat.le_succ _, by simp, by simp,
      by simp⟩
  | del caller id =>
    obtain ⟨h1, h2⟩ := delete_todo_stateOk caller id s hs
    rcases hst : s.storage id with _ | todo
    · simp only [step, hst]
      exact ⟨h1, le_of_eq h2.symm, by rw [h2]; exact Nat.le_succ _, by simp, by simp,
        by simp⟩
    · obtain ⟨hlt, _⟩ := hs id todo hst
      simp only [step, hst]
      refine ⟨h1, le_of_eq h2.symm, by rw [h2]; exact Nat.le_succ _, ?_, ?_,
        by simp⟩
      · intro e hev
        simp only [List.mem_singleton] at hev
        subst hev
        rw [h2]
        simpa [eventId] using hlt
      · intro j hj
        simp at hj
  | setStatus caller now id st =>
    obtain ⟨h1, h2⟩ := update_status_stateOk caller now id st s hs
    simp only [step]
    exact ⟨h1, le_of_eq h2.symm, by rw [h2]; exact Nat.le_succ _, by simp, by simp,
      by simp⟩
  | query id =>
    simp only [step]
    exact ⟨hs, le_refl _, Nat.le_succ _, by simp, by simp, by simp⟩

theorem run_ok (ops : List Op) : ∀ s : State, StateOk s →
    s.counter + ops.length < U64MOD →
    StateOk (run s ops).1 ∧
    s.counter ≤ (run s ops).1.counter ∧
    (run s ops).1.counter ≤ s.counter + ops.length ∧
    (∀ e ∈ (run s ops).2, eventId e < (run s ops).1.counter) ∧
    (∀ j, Event.assigned j ∈ (run s ops).2 → s.counter ≤ j) ∧
    ((run s ops).2).Pairwise eventLt := by
  induction ops with
  | nil =>
    intro s hs _
    exact ⟨hs, le_refl _, by simp [run], by simp [run], by simp [run], by simp [run]⟩
  | cons op ops ih =>
    intro s hs hb
    have hw : s.counter + 1 < U64MOD := by
      simp only [List.length_cons] at hb
      omega
    obtain ⟨sOk, hle1, hle2, hev1, hasg1, hsmall⟩ := step_ok s op hs hw
    have hb2 : (step s op).1.counter + ops.length < U64MOD := by
      simp only [List.length_cons] at hb
      omega
    obtain ⟨rOk, hle3, hle4, hev2, hasg2, hpw⟩ := ih (step s op).1 sOk hb2
    simp only [run, List.length_cons]
    refine ⟨rOk, ?_, ?_, ?_, ?_, ?_⟩
    · omega
    · omega
    · intro e hev
      rcases List.mem_append.1 hev with hl | hr
      · have := hev1 e hl
        omega
      · exact hev2 e hr
    · intro j hj
      rcases List.mem_append.1 hj with hl | hr
      · exact hasg1 j hl
      · exact le_trans hle1 (hasg2 j hr)
    · rw [List.pairwise_append]
      refine ⟨?_, hpw, ?_⟩
      · rcases hsmall with h0 | ⟨x, h1⟩
        · rw [h0]
          exact List.Pairwise.nil
        · rw [h1]
          exact List.pairwise_singleton eventLt x
      · intro a ha b hb2
        cases b with
        | assigned j =>
          apply eventLt_of_lt
          have ha1 : eventId a < (step s op).1.counter := hev1 a ha
          have ha2 : (step s op).1.counter ≤ j := hasg2 j hb2
          omega
        | removed j => exact eventLt_removed a j

/-- C8: along any trace of operations from the freshly initialised state
(shorter than 2^64 calls, so the u64 counter cannot wrap), the id events
are pairwise ordered by `eventLt`: ids returned by successive successful
`add_todo` calls are strictly increasing, and an id whose record was
removed by `delete_todo` is strictly below every later assigned id, hence
never reused. -/
theorem C8_ids_strictly_increasing_never_reused (ops : List Op)
    (h : ops.length < U64MOD) :
    ((run initState ops).2).Pairwise eventLt := by
  have hs : StateOk initState := by
    intro id t h2
    exact Option.noConfusion h2
  have hb : initState.counter + ops.length < U64MOD := by
    simpa [initState] using h
  exact (run_ok ops initState hs hb).2.2.2.2.2

/-- Trace used to instantiate C8: two adds by alice, a destructive failed
delete by non-owner bob, then another add. -/
def opsW : List Op :=
  [.add "alice" 1 payloadW, .add "alice" 2 payloadW, .del "bob" 0,
   .add "carol" 3 payloadW]

/-- Witness for C8 at a concrete trace: events are
[assigned 0, assigned 1, removed 0, assigned 2], pairwise ordered. -/
theorem C8_witness : ((run initState opsW).2).Pairwise eventLt :=
  C8_ids_strictly_increasing_never_reused opsW (by decide)
